import Mathlib

/-!
Shallow embedding of the schema-normalization and validation pipeline of
`employee_scraper.py` (class `EnhancedGoogleDriveEmployeeScraper`), together
with theorems settling the frozen claims about it.

External collaborators (HTTP download, CSV/Excel decoding, and the pandas
generic date parser `pd.to_datetime`) are not part of the repository's code;
the generic date parser is taken as an explicit function parameter
`g : String → Option Date` wherever the source calls `pd.to_datetime`.
-/

set_option autoImplicit false

namespace EmployeeScraper

/-! ## Basic character and string utilities -/

/-- Whitespace characters stripped by Python `str.strip()` and matched by the
regex class `\s` (restricted to the ASCII range, which is all that occurs in
the configured synonym table and the data handled here). -/
def isSpaceU (c : Char) : Bool :=
  c = ' ' || c = '\t' || c = '\n' || c = '\r' || c = '\x0b' || c = '\x0c'

/-- Drop leading characters satisfying `p` (front trim). -/
def trimFront (p : Char → Bool) (cs : List Char) : List Char :=
  cs.dropWhile p

/-- Drop trailing characters satisfying `p` (end trim). -/
def trimEnd (p : Char → Bool) (cs : List Char) : List Char :=
  ((cs.reverse.dropWhile p)).reverse

/-- Python `str.strip()`: remove surrounding whitespace. -/
def pyStrip (s : String) : String :=
  ⟨trimEnd isSpaceU (trimFront isSpaceU s.data)⟩

/-- `needle` occurs as a contiguous substring of the character list
(the semantics of Python's `in` operator on strings). -/
def hasSub (n : List Char) : List Char → Bool
  | [] => n.isEmpty
  | c :: t => n.isPrefixOf (c :: t) || hasSub n t

/-- Python `needle in hay` for strings. -/
def strIn (needle hay : String) : Bool :=
  hasSub needle.data hay.data

/-- Python `ch in s` for a single character. -/
def charIn (c : Char) (s : String) : Bool :=
  s.data.contains c

/-- Python `str.lower()` (character-wise lowercasing). -/
def pyLower (s : String) : String :=
  ⟨s.data.map Char.toLower⟩

/-- Characters of the regex class `\w`: letters, digits, underscore
(ASCII range). -/
def isWordChar (c : Char) : Bool :=
  c.isAlphanum || c = '_'

/-- A character replaced by the `[\s_]+ → _` collapsing step of
`normalize_field_name`. -/
def isRunChar (c : Char) : Bool :=
  isSpaceU c || c = '_'

/-- Replace each maximal run of whitespace/underscore characters by a single
underscore, mirroring `re.sub(r'[\s_]+', '_', s)`.  The boolean flag records
whether the previous character belonged to a run. -/
def collapseRuns : Bool → List Char → List Char
  | _, [] => []
  | inRun, c :: cs =>
    if isRunChar c then
      if inRun then collapseRuns true cs else '_' :: collapseRuns true cs
    else
      c :: collapseRuns false cs

/-- `normalize_field_name`: lowercase, strip, replace characters outside
`[\w\s]` by `_`, collapse runs of whitespace/underscores to one `_`, and
strip leading/trailing underscores. -/
def normalize_field_name (s : String) : String :=
  let t := (pyStrip (pyLower s)).data
  let step1 := t.map (fun c => if isWordChar c || isSpaceU c then c else '_')
  let step2 := collapseRuns false step1
  ⟨trimEnd (· = '_') (trimFront (· = '_') step2)⟩

/-- `preserve_phone_number` (restricted to string inputs, where `pd.isna`
is always false): empty input yields `""`, otherwise only surrounding
whitespace is stripped. -/
def preserve_phone_number (phone : String) : String :=
  if phone = "" then "" else pyStrip phone

/-! ## Dates and `datetime.strptime`-style format matching -/

/-- A calendar date, as produced by the date parsers used in the pipeline. -/
structure Date where
  year : Nat
  month : Nat
  day : Nat
  deriving DecidableEq, Repr

def isLeap (y : Nat) : Bool :=
  (y % 4 = 0 && y % 100 ≠ 0) || y % 400 = 0

def daysInMonth (y m : Nat) : Nat :=
  if m = 2 then (if isLeap y then 29 else 28)
  else if m = 4 || m = 6 || m = 9 || m = 11 then 30
  else 31

/-- Validity check applied by the `datetime.date` constructor: year in
`1..9999`, month in `1..12`, day within the month. -/
def validYMD (y m d : Nat) : Bool :=
  1 ≤ y && y ≤ 9999 && 1 ≤ m && m ≤ 12 && 1 ≤ d && d ≤ daysInMonth y m

def digitVal (c : Char) : Nat := c.toNat - 48

def twoDigits (a b : Char) : Nat := 10 * digitVal a + digitVal b

/-- zero-padded two-digit rendering, as in `date.isoformat`. -/
def pad2 (n : Nat) : String :=
  if n < 10 then "0" ++ toString n else toString n

/-- zero-padded four-digit rendering, as in `date.isoformat`. -/
def pad4 (n : Nat) : String :=
  (if n < 10 then "000" else if n < 100 then "00" else if n < 1000 then "0" else "")
    ++ toString n

/-- `date.isoformat()`: the canonical `YYYY-MM-DD` rendering. -/
def isoformat (d : Date) : String :=
  pad4 d.year ++ "-" ++ pad2 d.month ++ "-" ++ pad2 d.day

/-- Tokens of a `strptime` format string: the directives used by the
format list of `parse_date`, plus literal characters. -/
inductive FmtTok where
  | Y | m | d | H | M | S | B | b
  | lit (c : Char)
  deriving DecidableEq

/-- Translate a format string into its token list (`%X` directives and
literal characters). -/
def fmtToks : List Char → List FmtTok
  | [] => []
  | '%' :: c :: rest =>
    (match c with
     | 'Y' => FmtTok.Y | 'm' => FmtTok.m | 'd' => FmtTok.d
     | 'H' => FmtTok.H | 'M' => FmtTok.M | 'S' => FmtTok.S
     | 'B' => FmtTok.B | 'b' => FmtTok.b
     | other => FmtTok.lit other) :: fmtToks rest
  | c :: rest => FmtTok.lit c :: fmtToks rest

/-- Partial parse state of `strptime`, with the CPython defaults
(year 1900, month 1, day 1). -/
structure PParts where
  py : Nat := 1900
  pm : Nat := 1
  pdy : Nat := 1
  ph : Nat := 0
  pmin : Nat := 0
  ps : Nat := 0
  deriving DecidableEq

def fullMonths : List (String × Nat) :=
  [("january", 1), ("february", 2), ("march", 3), ("april", 4), ("may", 5),
   ("june", 6), ("july", 7), ("august", 8), ("september", 9), ("october", 10),
   ("november", 11), ("december", 12)]

def abbrMonths : List (String × Nat) :=
  [("jan", 1), ("feb", 2), ("mar", 3), ("apr", 4), ("may", 5), ("jun", 6),
   ("jul", 7), ("aug", 8), ("sep", 9), ("oct", 10), ("nov", 11), ("dec", 12)]

/-- Strip `p` (given lowercase) as a case-insensitive prefix of `cs`. -/
def stripCI : List Char → List Char → Option (List Char)
  | [], cs => some cs
  | _ :: _, [] => none
  | p :: ps, c :: cs => if c.toLower = p then stripCI ps cs else none

/-- Match a month name (case-insensitively) from one of the name tables,
recording the month number. -/
def matchMonth (names : List (String × Nat)) (st : PParts) (cs : List Char) :
    Option (PParts × List Char) :=
  match names with
  | [] => none
  | (nm, k) :: rest =>
    match stripCI nm.data cs with
    | some cs' => some ({ st with pm := k }, cs')
    | none => matchMonth rest st cs

/-- The candidate matches of one format token against the input, in the
order the CPython `_strptime` regex alternation tries them: for the numeric
directives, the two-digit reading first, then the one-digit reading.
Each token has at most two candidates. -/
def tokCands (st : PParts) (t : FmtTok) (cs : List Char) :
    Option (PParts × List Char) × Option (PParts × List Char) :=
  match t with
  | FmtTok.Y =>
    (match cs with
     | a :: b :: c :: d :: rest =>
       if a.isDigit && b.isDigit && c.isDigit && d.isDigit then
         some ({ st with py := 1000 * digitVal a + 100 * digitVal b +
                          10 * digitVal c + digitVal d }, rest)
       else none
     | _ => none, none)
  | FmtTok.m =>
    (match cs with
     | a :: b :: rest =>
       if a.isDigit && b.isDigit && 1 ≤ twoDigits a b && twoDigits a b ≤ 12 then
         some ({ st with pm := twoDigits a b }, rest)
       else none
     | _ => none,
     match cs with
     | a :: rest =>
       if a.isDigit && 1 ≤ digitVal a then some ({ st with pm := digitVal a }, rest)
       else none
     | _ => none)
  | FmtTok.d =>
    (match cs with
     | a :: b :: rest =>
       if a.isDigit && b.isDigit && 1 ≤ twoDigits a b && twoDigits a b ≤ 31 then
         some ({ st with pdy := twoDigits a b }, rest)
       else none
     | _ => none,
     match cs with
     | a :: rest =>
       if a.isDigit && 1 ≤ digitVal a then some ({ st with pdy := digitVal a }, rest)
       else none
     | _ => none)
  | FmtTok.H =>
    (match cs with
     | a :: b :: rest =>
       if a.isDigit && b.isDigit && twoDigits a b ≤ 23 then
         some ({ st with ph := twoDigits a b }, rest)
       else none
     | _ => none,
     match cs with
     | a :: rest => if a.isDigit then some ({ st with ph := digitVal a }, rest) else none
     | _ => none)
  | FmtTok.M =>
    (match cs with
     | a :: b :: rest =>
       if a.isDigit && b.isDigit && twoDigits a b ≤ 59 then
         some ({ st with pmin := twoDigits a b }, rest)
       else none
     | _ => none,
     match cs with
     | a :: rest => if a.isDigit then some ({ st with pmin := digitVal a }, rest) else none
     | _ => none)
  | FmtTok.S =>
    (match cs with
     | a :: b :: rest =>
       if a.isDigit && b.isDigit && twoDigits a b ≤ 59 then
         some ({ st with ps := twoDigits a b }, rest)
       else none
     | _ => none,
     match cs with
     | a :: rest => if a.isDigit then some ({ st with ps := digitVal a }, rest) else none
     | _ => none)
  | FmtTok.B => (matchMonth fullMonths st cs, none)
  | FmtTok.b => (matchMonth abbrMonths st cs, none)
  | FmtTok.lit c =>
    if isSpaceU c then
      -- CPython replaces whitespace in the format by `\s+`
      (match cs with
       | x :: rest => if isSpaceU x then some (st, rest.dropWhile isSpaceU) else none
       | [] => none, none)
    else
      (match cs with
       | x :: rest => if x = c then some (st, rest) else none
       | [] => none, none)

/-- Match a token list against the whole input, trying the primary candidate
of each token, then its fallback (the backtracking performed by the
`_strptime` regex).  The entire input must be consumed. -/
def matchToks : List FmtTok → PParts → List Char → Option PParts
  | [], st, cs => if cs.isEmpty then some st else none
  | t :: ts, st, cs =>
    let c := tokCands st t cs
    (match c.1 with
     | some (st', cs') => matchToks ts st' cs'
     | none => none).orElse
    (fun _ =>
      match c.2 with
      | some (st', cs') => matchToks ts st' cs'
      | none => none)

/-- `datetime.strptime(s, fmt).date()`, returning `none` where Python raises
`ValueError` (no regex match, or an impossible calendar date). -/
def strptimeDate (fmt : String) (s : String) : Option Date :=
  match matchToks (fmtToks fmt.data) {} s.data with
  | some st => if validYMD st.py st.pm st.pdy then some ⟨st.py, st.pm, st.pdy⟩ else none
  | none => none

/-- The ordered explicit format list of `parse_date`. -/
def date_formats : List String :=
  ["%Y-%m-%d", "%m/%d/%Y", "%d/%m/%Y", "%m-%d-%Y", "%d-%m-%Y",
   "%Y/%m/%d", "%d.%m.%Y", "%m.%d.%Y", "%Y.%m.%d",
   "%B %d, %Y", "%d %B %Y", "%b %d, %Y", "%d %b %Y",
   "%Y-%m-%d %H:%M:%S", "%m/%d/%Y %H:%M:%S"]

/-- First format of the list that parses the string. -/
def firstFormat : List String → String → Option Date
  | [], _ => none
  | f :: fs, s =>
    match strptimeDate f s with
    | some d => some d
    | none => firstFormat fs s

/-- The explicit-format tier of `parse_date`. -/
def tryDateFormats (s : String) : Option Date :=
  firstFormat date_formats s

/-- `parse_date`: `None` for an absent/empty input; otherwise strip, try the
explicit formats in order, then the generic best-effort parser `g`
(modelling `pd.to_datetime`), and finally fall back to returning the
stripped string itself. -/
def parse_date (g : String → Option Date) (date_str : Option String) : Option String :=
  match date_str with
  | none => none
  | some s =>
    if s = "" then none
    else
      let t := pyStrip s
      match tryDateFormats t with
      | some d => some (isoformat d)
      | none =>
        match g t with
        | some d => some (isoformat d)
        | none => some t

/-! ## Canonical records and field mapping -/

/-- A raw row: ordered mapping from column label to raw value
(`none` models a pandas NaN). -/
abbrev RawRow := List (String × Option String)

/-- A canonical employee record: the eight canonical fields, the provenance
metadata `_row_number` and `_original_data`, and the `_warnings` key that the
validator may attach (`[]` meaning the key is absent). -/
structure Employee where
  employee_id : Option String := none
  first_name : Option String := none
  last_name : Option String := none
  email : Option String := none
  job_title : Option String := none
  phone_number : Option String := none
  hire_date : Option String := none
  date_of_birth : Option String := none
  rowNumber : Nat := 0
  originalData : List (String × String) := []
  warningsAttached : List String := []
  deriving DecidableEq, Repr

/-- Python truthiness of `employee.get(field)`: present and non-empty. -/
def truthy : Option String → Bool
  | none => false
  | some s => s ≠ ""

def employee_id_synonyms : List String :=
  ["employee_id", "emp_id", "id", "employee id", "empid", "employee_number",
   "employee_no", "emp_no", "staff_id", "staff_number", "worker_id", "badge_number",
   "user_id", "userid", "user id", "user_number", "user_no", "uid", "user"]

def first_name_synonyms : List String :=
  ["first_name", "firstname", "first name", "fname", "given_name", "first",
   "forename", "christian_name", "name_first"]

def last_name_synonyms : List String :=
  ["last_name", "lastname", "last name", "lname", "surname", "family_name", "last",
   "name_last", "family", "name_family"]

def email_synonyms : List String :=
  ["email", "email_address", "e_mail", "mail", "email address", "e-mail",
   "work_email", "business_email", "company_email"]

def job_title_synonyms : List String :=
  ["job_title", "title", "position", "role", "job title", "designation", "job_position",
   "job", "occupation", "post", "rank", "job_role", "position_title"]

def phone_number_synonyms : List String :=
  ["phone", "phone_number", "mobile", "contact", "telephone", "phone number",
   "cell", "cell_phone", "mobile_phone", "work_phone", "business_phone",
   "tel", "contact_number", "phone_no", "mobile_no", "cell_no"]

def hire_date_synonyms : List String :=
  ["hire_date", "start_date", "join_date", "employment_date", "hired_date", "date_hired",
   "joining_date", "start_employment", "employment_start", "date_joined", "onboard_date"]

def date_of_birth_synonyms : List String :=
  ["date_of_birth", "dob", "birth_date", "birthdate", "date of birth", "birthday",
   "birth_day", "born_date", "date_born", "birth", "dob_date"]

/-- `self.field_mappings`: canonical field → prioritized synonym list, in
declaration order. -/
def field_mappings : List (String × List String) :=
  [("employee_id", employee_id_synonyms),
   ("first_name", first_name_synonyms),
   ("last_name", last_name_synonyms),
   ("email", email_synonyms),
   ("job_title", job_title_synonyms),
   ("phone_number", phone_number_synonyms),
   ("hire_date", hire_date_synonyms),
   ("date_of_birth", date_of_birth_synonyms)]

/-- Dictionary-style insertion: replace the value at an existing key,
otherwise append the new entry. -/
def upsert : List (String × String) → String → String → List (String × String)
  | [], k, v => [(k, v)]
  | (k', v') :: rest, k, v =>
    if k' = k then (k, v) :: rest else (k', v') :: upsert rest k v

/-- First-match association lookup (the keys of a `normalizeRow` result are
unique, so this is dictionary lookup). -/
def lookupA : List (String × String) → String → Option String
  | [], _ => none
  | (k', v') :: rest, k => if k' = k then some v' else lookupA rest k

/-- One step of building the `normalized_row` dictionary: skip absent and
empty-after-strip values, key by the normalized label, value the stripped
string. -/
def normRowStep (acc : List (String × String)) (kv : String × Option String) :
    List (String × String) :=
  match kv.2 with
  | none => acc
  | some v =>
    if pyStrip v = "" then acc
    else upsert acc (normalize_field_name kv.1) (pyStrip v)

/-- The `normalized_row` dictionary built for each raw row. -/
def normalizeRow (row : RawRow) : List (String × String) :=
  row.foldl normRowStep []

/-- Scan a synonym list in priority order; the first synonym whose normalized
form is a key of the normalized row supplies the (key, value) pair. -/
def resolveField (nrow : List (String × String)) : List String → Option (String × String)
  | [] => none
  | k :: rest =>
    let nk := normalize_field_name k
    match lookupA nrow nk with
    | some v => some (nk, v)
    | none => resolveField nrow rest

/-- The field-specific processing applied to a matched value before it is
stored on the canonical record. -/
def applyFieldTransform (g : String → Option Date) (field : String) (v : String) :
    Option String :=
  if field = "phone_number" then some (preserve_phone_number v)
  else if field = "hire_date" || field = "date_of_birth" then parse_date g (some v)
  else if field = "email" then some (pyStrip (pyLower v))
  else some v

/-- `employee[standard_field] = value` for the eight canonical field names. -/
def setField (e : Employee) (f : String) (v : Option String) : Employee :=
  if f = "employee_id" then { e with employee_id := v }
  else if f = "first_name" then { e with first_name := v }
  else if f = "last_name" then { e with last_name := v }
  else if f = "email" then { e with email := v }
  else if f = "job_title" then { e with job_title := v }
  else if f = "phone_number" then { e with phone_number := v }
  else if f = "hire_date" then { e with hire_date := v }
  else if f = "date_of_birth" then { e with date_of_birth := v }
  else e

/-- One step of the field-mapping loop body. -/
def mapFieldStep (g : String → Option Date) (nrow : List (String × String))
    (e : Employee) (fm : String × List String) : Employee :=
  match resolveField nrow fm.2 with
  | none => e
  | some kv => setField e fm.1 (applyFieldTransform g fm.1 kv.2)

/-- The inner loop of `map_employee_fields`: build the canonical record for
one normalized row. -/
def buildEmployee (g : String → Option Date) (nrow : List (String × String)) : Employee :=
  field_mappings.foldl (mapFieldStep g nrow) {}

/-- The inclusion rule: at least one identifying field non-empty. -/
def anyIdentifying (e : Employee) : Bool :=
  truthy e.employee_id || truthy e.first_name || truthy e.last_name || truthy e.email

/-- Process one raw row (`row_idx` is its 0-based position): build the
canonical record, and retain it — with `_row_number` and `_original_data`
provenance — only if it has identifying information. -/
def mapRow (g : String → Option Date) (row_idx : Nat) (row : RawRow) : Option Employee :=
  let e := buildEmployee g (normalizeRow row)
  if anyIdentifying e then
    some { e with
            rowNumber := row_idx + 1,
            originalData := row.filterMap (fun kv => kv.2.map (fun v => (kv.1, v))) }
  else none

/-- `map_employee_fields`: map every raw row, keeping the retained records
in input order. -/
def map_employee_fields (g : String → Option Date) (raw : List RawRow) : List Employee :=
  raw.enum.filterMap (fun p => mapRow g p.1 p.2)

/-! ## Validation -/

/-- The email shape regex
`^[a-zA-Z0-9._%+-]+@[a-zA-Z0-9.-]+\.[a-zA-Z]{2,}$`: local-part charset. -/
def localChar (c : Char) : Bool :=
  c.isAlphanum || c = '.' || c = '_' || c = '%' || c = '+' || c = '-'

/-- Domain charset of the email regex. -/
def domChar (c : Char) : Bool :=
  c.isAlphanum || c = '.' || c = '-'

/-- Domain part of the email regex: `[a-zA-Z0-9.-]+\.[a-zA-Z]{2,}` matched to
the end of the string.  The trailing letter block must follow the last dot. -/
def matchDomain (dom : List Char) : Bool :=
  let r := dom.reverse
  let t := r.takeWhile Char.isAlpha
  match r.drop t.length with
  | '.' :: drest => t.length ≥ 2 && !drest.isEmpty && drest.all domChar
  | _ => false

/-- The full anchored email regex of `validate_employee_data`. -/
def email_pattern (s : String) : Bool :=
  let cs := s.data
  let loc := cs.takeWhile localChar
  match cs.drop loc.length with
  | '@' :: dom => !loc.isEmpty && matchDomain dom
  | _ => false

/-- Modelled from the spec: the prose shape check of the specification —
"exactly one `@`, a non-empty local part, a domain containing a dot, and a
TLD of two or more alphabetic characters" — used to compare the spec's
description against the implemented pattern. -/
def specEmailShape (s : String) : Bool :=
  let cs := s.data
  if cs.count '@' ≠ 1 then false
  else
    let loc := cs.takeWhile (· ≠ '@')
    let dom := (cs.drop loc.length).drop 1
    let tld := (dom.reverse.takeWhile (· ≠ '.')).reverse
    !loc.isEmpty && dom.contains '.' && tld.length ≥ 2 && tld.all Char.isAlpha

/-- `re.search(r'\d{7,}', s)`: the string contains a run of at least seven
consecutive digits. -/
def hasRun7Aux : Nat → List Char → Bool
  | n, [] => n ≥ 7
  | n, c :: cs => if c.isDigit then hasRun7Aux (n + 1) cs else (n ≥ 7 || hasRun7Aux 0 cs)

def hasRun7 (s : String) : Bool :=
  hasRun7Aux 0 s.data

/-- Total number of digit characters in a string (the quantity named by the
specification's "fewer than 7 digits total"). -/
def digitCount (s : String) : Nat :=
  (s.data.filter Char.isDigit).length

/-- Strict `datetime.fromisoformat` (Python 3.10): `YYYY-MM-DD`, optionally
followed by a one-character separator and `HH:MM` or `HH:MM:SS`, returning
the date part. -/
def fromisoformat (s : String) : Option Date :=
  match s.data with
  | y1 :: y2 :: y3 :: y4 :: '-' :: m1 :: m2 :: '-' :: d1 :: d2 :: rest =>
    if y1.isDigit && y2.isDigit && y3.isDigit && y4.isDigit &&
       m1.isDigit && m2.isDigit && d1.isDigit && d2.isDigit then
      let y := 1000 * digitVal y1 + 100 * digitVal y2 + 10 * digitVal y3 + digitVal y4
      let mo := twoDigits m1 m2
      let dy := twoDigits d1 d2
      let timeOk : Bool :=
        match rest with
        | [] => true
        | _ :: h1 :: h2 :: ':' :: n1 :: n2 :: more =>
          h1.isDigit && h2.isDigit && n1.isDigit && n2.isDigit &&
          twoDigits h1 h2 ≤ 23 && twoDigits n1 n2 ≤ 59 &&
          (match more with
           | [] => true
           | ':' :: s1 :: s2 :: [] =>
             s1.isDigit && s2.isDigit && twoDigits s1 s2 ≤ 59
           | _ => false)
        | _ => false
      if timeOk && validYMD y mo dy then some ⟨y, mo, dy⟩ else none
    else none
  | _ => none

/-- The validator's re-parse of a stored date string:
`datetime.fromisoformat(s) if '-' in s else pd.to_datetime(s)`, with `g`
standing for the external `pd.to_datetime` (`none` = raises). -/
def reparse (g : String → Option Date) (s : String) : Option Date :=
  if charIn '-' s then fromisoformat s else g s

/-- Identification issue block of the validator. -/
def idIssues (e : Employee) : List String :=
  if !(truthy e.employee_id || (truthy e.first_name || truthy e.last_name)
        || truthy e.email) then
    ["Missing employee identification (ID, name, or email)"]
  else []

/-- "Missing employee ID" warning block. -/
def idWarns (e : Employee) : List String :=
  if !truthy e.employee_id then ["Missing employee ID"] else []

/-- Email issue block: a present, non-empty email failing the pattern. -/
def emailIssues (e : Employee) : List String :=
  match e.email with
  | some s => if s ≠ "" then (if email_pattern s then [] else ["Invalid email format"]) else []
  | none => []

/-- Missing-email warning block. -/
def emailWarns (e : Employee) : List String :=
  if !truthy e.email then ["Missing email address"] else []

/-- Phone warning block: a present phone without a 7-digit run is flagged but
never rejected; an absent phone is flagged as missing. -/
def phoneWarns (e : Employee) : List String :=
  match e.phone_number with
  | some p =>
    if p ≠ "" then
      (if hasRun7 p then [] else ["Phone number may be invalid format: " ++ p])
    else ["Missing phone number"]
  | none => ["Missing phone number"]

/-- Hire-date issue block: the re-parse attempt raising becomes the issue
"Invalid hire date format". -/
def hireIssues (g : String → Option Date) (e : Employee) : List String :=
  match e.hire_date with
  | some hd =>
    if hd ≠ "" then
      (if hd = "None" then []
       else match reparse g hd with
            | some _ => []
            | none => ["Invalid hire date format"])
    else []
  | none => []

/-- Hire-date warning block: unrealistic year range, or missing date. -/
def hireWarns (g : String → Option Date) (cy : Nat) (e : Employee) : List String :=
  match e.hire_date with
  | some hd =>
    if hd ≠ "" then
      (if hd = "None" then []
       else match reparse g hd with
            | some d => if d.year < 1950 || d.year > cy then ["Hire date seems unrealistic"] else []
            | none => [])
    else ["Missing hire date"]
  | none => ["Missing hire date"]

/-- Date-of-birth issue block. -/
def dobIssues (g : String → Option Date) (e : Employee) : List String :=
  match e.date_of_birth with
  | some db =>
    if db ≠ "" then
      (if db = "None" then []
       else match reparse g db with
            | some _ => []
            | none => ["Invalid date of birth format"])
    else []
  | none => []

/-- Date-of-birth warning block: implausible implied age, or missing date. -/
def dobWarns (g : String → Option Date) (cy : Nat) (e : Employee) : List String :=
  match e.date_of_birth with
  | some db =>
    if db ≠ "" then
      (if db = "None" then []
       else match reparse g db with
            | some d =>
              if (cy : Int) - (d.year : Int) < 16 || (cy : Int) - (d.year : Int) > 100 then
                ["Date of birth seems unrealistic"]
              else []
            | none => [])
    else ["Missing date of birth"]
  | none => ["Missing date of birth"]

/-- Missing-job-title warning block. -/
def jobWarns (e : Employee) : List String :=
  if !truthy e.job_title then ["Missing job title"] else []

/-- The `issues` and `warnings` lists accumulated by one iteration of the
validation loop, in the order the source appends them. -/
def employeeIssues (g : String → Option Date) (cy : Nat) (e : Employee) :
    List String × List String :=
  (idIssues e ++ emailIssues e ++ hireIssues g e ++ dobIssues g e,
   idWarns e ++ emailWarns e ++ phoneWarns e ++ hireWarns g cy e
     ++ dobWarns g cy e ++ jobWarns e)

/-- The critical-issue test:
`"Missing employee identification" in issue or "Invalid email format" in issue
or "Invalid date" in issue`. -/
def isCritical (issue : String) : Bool :=
  strIn "Missing employee identification" issue
    || strIn "Invalid email format" issue
    || strIn "Invalid date" issue

/-- An entry of the invalid partition. -/
structure InvalidEntry where
  row : Nat
  employee : Employee
  issues : List String
  warnings : List String
  deriving DecidableEq, Repr

/-- Classification outcome of one record. -/
inductive Outcome where
  | ok (e : Employee)
  | bad (entry : InvalidEntry)
  deriving DecidableEq, Repr

/-- Classify one canonical record: records with no critical issue go to the
valid partition (gaining a `_warnings` key when warnings exist), all others
to the invalid partition. -/
def classify (g : String → Option Date) (cy : Nat) (e : Employee) : Outcome :=
  let iw := employeeIssues g cy e
  if (iw.1.filter isCritical).isEmpty then
    Outcome.ok (if iw.2.isEmpty then e else { e with warningsAttached := iw.2 })
  else
    Outcome.bad ⟨e.rowNumber, e, iw.1, iw.2⟩

/-- The two partitions produced by `validate_employee_data`. -/
structure ValidationResults where
  valid : List Employee
  invalid : List InvalidEntry
  deriving DecidableEq, Repr

/-- `validate_employee_data`: classify every record, preserving order within
each partition. -/
def validate_employee_data (g : String → Option Date) (cy : Nat)
    (employees : List Employee) : ValidationResults where
  valid := employees.filterMap (fun e =>
    match classify g cy e with
    | Outcome.ok v => some v
    | Outcome.bad _ => none)
  invalid := employees.filterMap (fun e =>
    match classify g cy e with
    | Outcome.ok _ => none
    | Outcome.bad b => some b)

/-! ## Orchestrator -/

/-- Aggregate counts of a successful run. -/
structure RunStats where
  total_rows_in_file : Nat
  employees_mapped : Nat
  valid_employees : Nat
  invalid_employees : Nat
  deriving DecidableEq, Repr

/-- Result of `scrape_employee_data` after the external download/parse
stages have produced the raw rows: a success result with the partitions and
counts, or the single failure result with error message and timestamp. -/
inductive ScrapeResult where
  | ok (stats : RunStats) (validR : List Employee) (invalidR : List InvalidEntry)
  | err (error : String) (timestamp : String)
  deriving DecidableEq, Repr

/-- The pipeline tail of `scrape_employee_data`: an empty raw-record source
raises `ValueError("No data found in the file")`, which the surrounding
handler converts into the failure result; otherwise map, validate, and
assemble the success result. -/
def scrape_employee_data (g : String → Option Date) (cy : Nat)
    (timestamp : String) (raw : List RawRow) : ScrapeResult :=
  if raw.isEmpty then ScrapeResult.err "No data found in the file" timestamp
  else
    let mapped := map_employee_fields g raw
    let vr := validate_employee_data g cy mapped
    ScrapeResult.ok ⟨raw.length, mapped.length, vr.valid.length, vr.invalid.length⟩
      vr.valid vr.invalid

/-- Instantiation of the external generic date parser on inputs where
`pd.to_datetime` raises (used for the concrete evaluations below). -/
def noParse : String → Option Date := fun _ => none

/-! ## Derived checks and concrete fixtures -/

/-- The normalized forms of a synonym list. -/
def normSyns (syns : List String) : List String :=
  syns.map normalize_field_name

/-- Pairwise disjointness of the normalized synonym lists of distinct
canonical fields in the configured table. -/
def noReuseCheck : Bool :=
  field_mappings.all (fun p₁ =>
    field_mappings.all (fun p₂ =>
      p₁.1 = p₂.1 || (normSyns p₁.2).all (fun k => !((normSyns p₂.2).elem k))))

/-- Canonical record with an unparseable hire date and nothing else wrong. -/
def cexHire : Employee :=
  { employee_id := some "1", hire_date := some "32/13/2020" }

/-- Canonical record with an unparseable date of birth and nothing else
wrong. -/
def cexDob : Employee :=
  { employee_id := some "2", date_of_birth := some "32/13/2020" }

/-- Canonical record whose phone has ten digits total but no run of seven
consecutive digits. -/
def cexPhone : Employee :=
  { employee_id := some "3", phone_number := some "123-456-7890" }

/-- Canonical record whose email satisfies the specification's prose shape
description but fails the implemented regex (space in the local part). -/
def cexEmail : Employee :=
  { employee_id := some "4", email := some "a b@x.com" }

/-- Canonical record with a present, shape-violating email (witness input). -/
def wEmailRec : Employee :=
  { employee_id := some "5", email := some "invalid-email" }

/-- Canonical record used for the validator frame witness. -/
def wFrameRec : Employee :=
  { first_name := some "Ann" }

/-- Raw row of the specification's Scenario B. -/
def rowScenarioB : RawRow :=
  [("first_name", some ""), ("last_name", some ""), ("email", some "invalid-email"),
   ("phone_number", some "abc"), ("hire_date", some "32/13/2020")]

/-- Raw row of the specification's Scenario C. -/
def rowScenarioC : RawRow :=
  [("employee_id", some "1"), ("phone_number", some "555")]

/-- Normalized row populating both an `employee_id` and a `user_id` column. -/
def nrowPrec : List (String × String) :=
  [("employee_id", "7"), ("user_id", "9")]

/-- Normalized row populating two different canonical fields. -/
def nrowPair : List (String × String) :=
  [("employee_id", "7"), ("first_name", "Alice")]

/-- Normalized row whose only match for `first_name` is the synonym
`fname`, which sits behind three non-matching synonyms. -/
def nrowFname : List (String × String) :=
  [("fname", "Bob")]

/-! ## Lemmas about the string utilities -/

theorem trimEnd_eq_rdropWhile (p : Char → Bool) (cs : List Char) :
    trimEnd p cs = cs.rdropWhile p := rfl

theorem pyStrip_data (s : String) :
    (pyStrip s).data = ((s.data.dropWhile isSpaceU).rdropWhile isSpaceU) := rfl

/-- Stripping is idempotent. -/
theorem pyStrip_idem (s : String) : pyStrip (pyStrip s) = pyStrip s := by
  have key : ∀ cs : List Char,
      (((cs.dropWhile isSpaceU).rdropWhile isSpaceU).dropWhile isSpaceU).rdropWhile isSpaceU
        = (cs.dropWhile isSpaceU).rdropWhile isSpaceU := by
    intro cs
    have h1 : ((cs.dropWhile isSpaceU).rdropWhile isSpaceU).dropWhile isSpaceU
        = (cs.dropWhile isSpaceU).rdropWhile isSpaceU := by
      cases hR : (cs.dropWhile isSpaceU).rdropWhile isSpaceU with
      | nil => simp
      | cons c t' =>
        obtain ⟨t, ht⟩ := List.rdropWhile_prefix isSpaceU (cs.dropWhile isSpaceU)
        rw [hR] at ht
        have hidem := List.dropWhile_idempotent isSpaceU cs
        rw [← ht, List.cons_append, List.dropWhile_cons] at hidem
        have hc : isSpaceU c = false := by
          by_contra hcc
          rw [Bool.not_eq_false] at hcc
          rw [if_pos hcc] at hidem
          have hsuf := List.dropWhile_suffix (l := t' ++ t) isSpaceU
          have hlen := hsuf.length_le
          have hlen2 := congrArg List.length hidem
          rw [List.length_cons, List.length_append] at hlen2
          rw [List.length_append] at hlen
          omega
        rw [List.dropWhile_cons, hc]
        simp
    rw [h1, List.rdropWhile_idempotent]
  apply String.ext
  exact key s.data

/-- `preserve_phone_number` coincides with whitespace stripping. -/
theorem preserve_phone_number_eq_pyStrip (s : String) :
    preserve_phone_number s = pyStrip s := by
  unfold preserve_phone_number
  split
  · subst ‹s = ""›
    rfl
  · rfl

/-! ## Lemmas about the normalized-row dictionary -/

theorem lookupA_mem {l : List (String × String)} {k v : String}
    (h : lookupA l k = some v) : (k, v) ∈ l := by
  induction l with
  | nil => simp [lookupA] at h
  | cons kv rest ih =>
    obtain ⟨k', v'⟩ := kv
    rw [lookupA] at h
    split at h
    · obtain rfl : v' = v := by injection h
      subst ‹k' = k›
      exact List.mem_cons_self _ _
    · exact List.mem_cons_of_mem _ (ih h)

theorem mem_upsert {l : List (String × String)} {k v k' v' : String}
    (h : (k', v') ∈ upsert l k v) : (k', v') ∈ l ∨ (k' = k ∧ v' = v) := by
  induction l with
  | nil =>
    simp [upsert] at h
    exact Or.inr ⟨h.1, h.2⟩
  | cons kv rest ih =>
    obtain ⟨k0, v0⟩ := kv
    rw [upsert] at h
    split at h
    · rcases List.mem_cons.mp h with h1 | h1
      · simp at h1
        exact Or.inr h1
      · exact Or.inl (List.mem_cons_of_mem _ h1)
    · rcases List.mem_cons.mp h with h1 | h1
      · exact Or.inl (h1 ▸ List.mem_cons_self _ _)
      · rcases ih h1 with h2 | h2
        · exact Or.inl (List.mem_cons_of_mem _ h2)
        · exact Or.inr h2

theorem mem_normRow_foldl {k v : String} :
    ∀ (row : RawRow) (acc : List (String × String)),
      (k, v) ∈ row.foldl normRowStep acc →
      (k, v) ∈ acc ∨
        ∃ rk rv, (rk, some rv) ∈ row ∧ k = normalize_field_name rk ∧ v = pyStrip rv := by
  intro row
  induction row with
  | nil =>
    intro acc h
    exact Or.inl h
  | cons kv rest ih =>
    intro acc h
    rw [List.foldl_cons] at h
    rcases ih (normRowStep acc kv) h with h1 | h1
    · obtain ⟨rk0, rv0⟩ := kv
      rw [normRowStep] at h1
      rcases hv : rv0 with _ | v0
      · rw [hv] at h1
        exact Or.inl h1
      · rw [hv] at h1
        dsimp at h1
        split at h1
        · exact Or.inl h1
        · rcases mem_upsert h1 with h2 | h2
          · exact Or.inl h2
          · exact Or.inr ⟨rk0, v0, List.mem_cons_self _ _, h2.1, h2.2⟩
    · obtain ⟨rk0, rv0, hmem, hk, hv⟩ := h1
      exact Or.inr ⟨rk0, rv0, List.mem_cons_of_mem _ hmem, hk, hv⟩

/-- Every entry of a normalized row is the stripped value of some present
raw entry, keyed by the normalized label. -/
theorem mem_normalizeRow {row : RawRow} {k v : String}
    (h : (k, v) ∈ normalizeRow row) :
    ∃ rk rv, (rk, some rv) ∈ row ∧ k = normalize_field_name rk ∧ v = pyStrip rv := by
  rcases mem_normRow_foldl row [] h with h1 | h1
  · simp at h1
  · exact h1

/-! ## Lemmas about synonym resolution -/

theorem normSyns_cons (s : String) (rest : List String) :
    normSyns (s :: rest) = normalize_field_name s :: normSyns rest := rfl

/-- The key returned by `resolveField` is the normalized form of one of the
field's synonyms, and the value is that key's entry in the normalized row. -/
theorem resolveField_key_mem {nrow : List (String × String)} :
    ∀ {syns : List String} {k v : String},
      resolveField nrow syns = some (k, v) →
      k ∈ normSyns syns ∧ lookupA nrow k = some v := by
  intro syns
  induction syns with
  | nil =>
    intro k v h
    simp [resolveField] at h
  | cons s rest ih =>
    intro k v h
    simp only [resolveField] at h
    rcases hl : lookupA nrow (normalize_field_name s) with _ | v0
    · rw [hl] at h
      simp only at h
      have := ih h
      rw [normSyns_cons]
      exact ⟨List.mem_cons_of_mem _ this.1, this.2⟩
    · rw [hl] at h
      simp only at h
      have hkv : normalize_field_name s = k ∧ v0 = v := by
        have h' := Option.some.inj h
        exact ⟨congrArg Prod.fst h', congrArg Prod.snd h'⟩
      obtain ⟨hk, hv⟩ := hkv
      subst hk
      subst hv
      rw [normSyns_cons]
      exact ⟨List.mem_cons_self _ _, hl⟩

/-- The pairwise-disjointness check of the configured synonym table holds. -/
theorem noReuseCheck_true : noReuseCheck = true := by decide

/--
C3: with the configured synonym table, once a raw column label (as a key of
the normalized row) has supplied the value of one canonical field, no other
canonical field can obtain its value from the same label: the normalized
synonym lists of distinct canonical fields are disjoint, so the keys
resolved for two distinct fields always differ.
-/
theorem no_column_reuse
    (nrow : List (String × String)) (f₁ f₂ : String) (syn₁ syn₂ : List String)
    (k₁ k₂ v₁ v₂ : String)
    (h₁ : (f₁, syn₁) ∈ field_mappings) (h₂ : (f₂, syn₂) ∈ field_mappings)
    (hne : f₁ ≠ f₂)
    (r₁ : resolveField nrow syn₁ = some (k₁, v₁))
    (r₂ : resolveField nrow syn₂ = some (k₂, v₂)) :
    k₁ ≠ k₂ := by
  intro heq
  subst heq
  have m₁ := (resolveField_key_mem r₁).1
  have m₂ := (resolveField_key_mem r₂).1
  have hchk := noReuseCheck_true
  rw [noReuseCheck, List.all_eq_true] at hchk
  have h3 := hchk _ h₁
  rw [List.all_eq_true] at h3
  have h4 := h3 _ h₂
  rw [Bool.or_eq_true] at h4
  rcases h4 with h4 | h4
  · exact hne (by simpa using h4)
  · rw [List.all_eq_true] at h4
    have h5 := h4 _ m₁
    rw [Bool.not_eq_true'] at h5
    rw [List.elem_iff.mpr m₂] at h5
    cases h5

theorem no_column_reuse_witness : "employee_id" ≠ "first_name" :=
  no_column_reuse nrowPair "employee_id" "first_name"
    employee_id_synonyms first_name_synonyms
    "employee_id" "first_name" "7" "Alice"
    (by decide) (by decide) (by decide) rfl rfl

/--
C4: the value assigned to a canonical field is supplied by the first synonym
in the field's priority-ordered list whose normalized form is a key of the
normalized row (second part: a row populating both an `employee_id` and a
`user_id` column always yields the `employee_id` column's value, because
`employee_id` precedes every `user_id` variation in the synonym list).
-/
theorem first_synonym_supplies_value :
    (∀ (nrow : List (String × String)) (syns : List String) (i : Nat) (s k v : String),
       syns.get? i = some s → normalize_field_name s = k → lookupA nrow k = some v →
       (∀ j, j < i →
          Option.all (fun f' => (lookupA nrow (normalize_field_name f')).isNone)
            (syns.get? j) = true) →
       resolveField nrow syns = some (k, v)) ∧
    (∀ (nrow : List (String × String)) (v u : String),
       lookupA nrow "employee_id" = some v → lookupA nrow "user_id" = some u →
       resolveField nrow employee_id_synonyms = some ("employee_id", v)) := by
  constructor
  · intro nrow syns
    induction syns with
    | nil =>
      intro i s k v hget
      simp at hget
    | cons s0 rest ih =>
      intro i s k v hget hnorm hlook hprev
      match i with
      | 0 =>
        have hs : s0 = s := by simpa using hget
        subst hs
        subst hnorm
        simp [resolveField, hlook]
      | i' + 1 =>
        have h0 := hprev 0 (Nat.succ_pos _)
        simp [Option.all] at h0
        simp only [resolveField, h0]
        exact ih i' s k v (by simpa using hget) hnorm hlook
          (fun j hj => hprev (j + 1) (Nat.succ_lt_succ hj))
  · intro nrow v u hv _
    have hn : normalize_field_name "employee_id" = "employee_id" := by decide
    rw [employee_id_synonyms]
    simp [resolveField, hn, hv]

theorem first_synonym_supplies_value_witness :
    resolveField nrowFname first_name_synonyms = some ("fname", "Bob") ∧
      resolveField nrowPrec employee_id_synonyms = some ("employee_id", "7") :=
  ⟨first_synonym_supplies_value.1 nrowFname first_name_synonyms 3 "fname" "fname" "Bob"
      rfl (by decide) rfl (by decide),
   first_synonym_supplies_value.2 nrowPrec "7" "9" rfl rfl⟩

/-! ## Lemmas about `mapRow` and `map_employee_fields` -/

theorem mapRow_isSome_iff (g : String → Option Date) (i : Nat) (row : RawRow) :
    (mapRow g i row).isSome = true ↔
      anyIdentifying (buildEmployee g (normalizeRow row)) = true := by
  simp only [mapRow]
  split
  · simpa using ‹anyIdentifying (buildEmployee g (normalizeRow row)) = true›
  · simpa using ‹¬anyIdentifying (buildEmployee g (normalizeRow row)) = true›

theorem mapRow_eq_some {g : String → Option Date} {i : Nat} {row : RawRow} {e : Employee}
    (h : mapRow g i row = some e) :
    e = { buildEmployee g (normalizeRow row) with
            rowNumber := i + 1,
            originalData := row.filterMap (fun kv => kv.2.map (fun v => (kv.1, v))) } := by
  simp only [mapRow] at h
  split at h
  · exact (Option.some.inj h).symm
  · cases h

/--
C5: a raw row is retained as a canonical record exactly when at least one of
employee_id, first_name, last_name, email is non-empty after mapping, and
every retained record's `_row_number` is its 1-based position in the raw
input sequence (second and third parts: the retained records are precisely
the mapped rows, with `rowNumber = i + 1` for source index `i`).
-/
theorem retention_rule_and_row_numbers (g : String → Option Date) (raw : List RawRow) :
    (∀ i row, raw.get? i = some row →
       ((mapRow g i row).isSome = true ↔
         anyIdentifying (buildEmployee g (normalizeRow row)) = true)) ∧
    (∀ e, e ∈ map_employee_fields g raw →
       ∃ i row, raw.get? i = some row ∧ mapRow g i row = some e ∧ e.rowNumber = i + 1) ∧
    (∀ i row e, raw.get? i = some row → mapRow g i row = some e →
       e ∈ map_employee_fields g raw) := by
  refine ⟨fun i row _ => mapRow_isSome_iff g i row, ?_, ?_⟩
  · intro e he
    rw [map_employee_fields, List.mem_filterMap] at he
    obtain ⟨⟨i, row⟩, hmem, hmap⟩ := he
    rw [List.mem_enum_iff_get?] at hmem
    refine ⟨i, row, hmem, hmap, ?_⟩
    rw [mapRow_eq_some hmap]
  · intro i row e hget hmap
    rw [map_employee_fields, List.mem_filterMap]
    exact ⟨(i, row), List.mem_enum_iff_get?.mpr hget, hmap⟩

theorem retention_rule_and_row_numbers_witness :
    ((mapRow noParse 0 rowScenarioC).isSome = true ↔
      anyIdentifying (buildEmployee noParse (normalizeRow rowScenarioC)) = true) ∧
    (∃ i row, [rowScenarioC].get? i = some row ∧
      mapRow noParse i row = some
        { employee_id := some "1", phone_number := some "555", rowNumber := 1,
          originalData := [("employee_id", "1"), ("phone_number", "555")] } ∧
      ({ employee_id := some "1", phone_number := some "555", rowNumber := 1,
         originalData := [("employee_id", "1"), ("phone_number", "555")] }
        : Employee).rowNumber = i + 1) ∧
    ({ employee_id := some "1", phone_number := some "555", rowNumber := 1,
       originalData := [("employee_id", "1"), ("phone_number", "555")] } : Employee)
      ∈ map_employee_fields noParse [rowScenarioC] :=
  ⟨(retention_rule_and_row_numbers noParse [rowScenarioC]).1 0 rowScenarioC rfl,
   (retention_rule_and_row_numbers noParse [rowScenarioC]).2.1 _ (by decide),
   (retention_rule_and_row_numbers noParse [rowScenarioC]).2.2 0 rowScenarioC _ rfl rfl⟩

/-! ## Phone preservation -/

theorem setField_phone_of_ne (e : Employee) (f : String) (v : Option String)
    (h : f ≠ "phone_number") :
    (setField e f v).phone_number = e.phone_number := by
  unfold setField
  split_ifs <;> simp_all

theorem mapFieldStep_phone_of_ne (g : String → Option Date)
    (nrow : List (String × String)) (e : Employee) (fm : String × List String)
    (h : fm.1 ≠ "phone_number") :
    (mapFieldStep g nrow e fm).phone_number = e.phone_number := by
  unfold mapFieldStep
  split
  · rfl
  · exact setField_phone_of_ne _ _ _ h

theorem mapFieldStep_phone_eq (g : String → Option Date)
    (nrow : List (String × String)) (e : Employee) :
    (mapFieldStep g nrow e ("phone_number", phone_number_synonyms)).phone_number =
      match resolveField nrow phone_number_synonyms with
      | none => e.phone_number
      | some kv => some (preserve_phone_number kv.2) := by
  unfold mapFieldStep
  cases hr : resolveField nrow phone_number_synonyms <;>
    simp [hr, setField, applyFieldTransform]

/-- The phone field of a built record is exactly the preserved value of the
resolved phone column (or absent when no phone column matched). -/
theorem buildEmployee_phone (g : String → Option Date) (nrow : List (String × String)) :
    (buildEmployee g nrow).phone_number =
      (resolveField nrow phone_number_synonyms).map
        (fun kv => preserve_phone_number kv.2) := by
  unfold buildEmployee field_mappings
  simp only [List.foldl_cons, List.foldl_nil]
  rw [mapFieldStep_phone_of_ne _ _ _ _ (by decide)]
  rw [mapFieldStep_phone_of_ne _ _ _ _ (by decide)]
  rw [mapFieldStep_phone_eq]
  cases hr : resolveField nrow phone_number_synonyms with
  | none =>
    simp only [hr]
    rw [mapFieldStep_phone_of_ne _ _ _ _ (by decide)]
    rw [mapFieldStep_phone_of_ne _ _ _ _ (by decide)]
    rw [mapFieldStep_phone_of_ne _ _ _ _ (by decide)]
    rw [mapFieldStep_phone_of_ne _ _ _ _ (by decide)]
    rw [mapFieldStep_phone_of_ne _ _ _ _ (by decide)]
    rfl
  | some kv => simp [hr]

/--
C6: the canonical phone value of every retained record is some raw value of
its row with surrounding whitespace stripped, exactly; in particular
(Scenario C) a row with phone `"555"` and an identifying field is classified
valid, carries the phone-format warning, and keeps phone value `"555"`.
-/
theorem phone_preserved_verbatim :
    (∀ (g : String → Option Date) (i : Nat) (row : RawRow) (e : Employee) (p : String),
       mapRow g i row = some e → e.phone_number = some p →
       ∃ rk rv, (rk, some rv) ∈ row ∧ p = pyStrip rv) ∧
    ((validate_employee_data noParse 2026 (map_employee_fields noParse [rowScenarioC])).valid =
      [{ employee_id := some "1", phone_number := some "555", rowNumber := 1,
         originalData := [("employee_id", "1"), ("phone_number", "555")],
         warningsAttached := ["Missing email address",
           "Phone number may be invalid format: 555", "Missing hire date",
           "Missing date of birth", "Missing job title"] }]) := by
  constructor
  · intro g i row e p hmap hp
    rw [mapRow_eq_some hmap] at hp
    have hp' : (buildEmployee g (normalizeRow row)).phone_number = some p := hp
    rw [buildEmployee_phone] at hp'
    cases hr : resolveField (normalizeRow row) phone_number_synonyms with
    | none =>
      rw [hr] at hp'
      simp at hp'
    | some kv =>
      rw [hr] at hp'
      simp at hp'
      have hlk := (resolveField_key_mem hr).2
      have hmem := lookupA_mem hlk
      obtain ⟨rk, rv, hraw, hk, hv⟩ := mem_normalizeRow hmem
      refine ⟨rk, rv, hraw, ?_⟩
      rw [← hp', hv, preserve_phone_number_eq_pyStrip, pyStrip_idem]
  · rfl

theorem phone_preserved_verbatim_witness :
    ∃ rk rv, (rk, some rv) ∈ rowScenarioC ∧ "555" = pyStrip rv :=
  phone_preserved_verbatim.1 noParse 0 rowScenarioC
    { employee_id := some "1", phone_number := some "555", rowNumber := 1,
      originalData := [("employee_id", "1"), ("phone_number", "555")] }
    "555" rfl rfl

/-! ## Lemmas about the validator -/

theorem mem_idIssues {e : Employee} {x : String} (h : x ∈ idIssues e) :
    x = "Missing employee identification (ID, name, or email)" := by
  unfold idIssues at h
  split at h
  · simpa using h
  · simp at h

theorem mem_hireIssues {g : String → Option Date} {e : Employee} {x : String}
    (h : x ∈ hireIssues g e) : x = "Invalid hire date format" := by
  unfold hireIssues at h
  split at h
  · split at h
    · split at h
      · simp at h
      · split at h
        · simp at h
        · simpa using h
    · simp at h
  · simp at h

theorem mem_dobIssues {g : String → Option Date} {e : Employee} {x : String}
    (h : x ∈ dobIssues g e) : x = "Invalid date of birth format" := by
  unfold dobIssues at h
  split at h
  · split at h
    · split at h
      · simp at h
      · split at h
        · simp at h
        · simpa using h
    · simp at h
  · simp at h

theorem mem_emailIssues {e : Employee} {s x : String}
    (he : e.email = some s) (h : x ∈ emailIssues e) :
    x = "Invalid email format" ∧ s ≠ "" ∧ email_pattern s = false := by
  unfold emailIssues at h
  rw [he] at h
  dsimp only at h
  split at h
  case isTrue hs =>
    split at h
    case isTrue hp => simp at h
    case isFalse hp =>
      rw [Bool.not_eq_true] at hp
      exact ⟨by simpa using h, hs, hp⟩
  case isFalse hs => simp at h

theorem emailIssues_of_fail {e : Employee} {s : String}
    (he : e.email = some s) (hs : s ≠ "") (hp : email_pattern s = false) :
    emailIssues e = ["Invalid email format"] := by
  unfold emailIssues
  rw [he]
  simp [hs, hp]

theorem classify_ok_frame {g : String → Option Date} {cy : Nat} {e v : Employee}
    (h : classify g cy e = Outcome.ok v) :
    v = e ∨ ∃ w, v = { e with warningsAttached := w } := by
  simp only [classify] at h
  split at h
  · injection h with hv
    split at hv
    · exact Or.inl hv.symm
    · exact Or.inr ⟨_, hv.symm⟩
  · cases h

theorem classify_bad_frame {g : String → Option Date} {cy : Nat} {e : Employee}
    {b : InvalidEntry} (h : classify g cy e = Outcome.bad b) :
    b.employee = e ∧ b.issues = (employeeIssues g cy e).1 := by
  simp only [classify] at h
  split at h
  · cases h
  · injection h with hb
    rw [← hb]
    exact ⟨rfl, rfl⟩

theorem classify_bad_of_critical {g : String → Option Date} {cy : Nat} {e : Employee}
    (h : ((employeeIssues g cy e).1.filter isCritical).isEmpty = false) :
    classify g cy e =
      Outcome.bad ⟨e.rowNumber, e, (employeeIssues g cy e).1, (employeeIssues g cy e).2⟩ := by
  simp only [classify]
  rw [h]
  simp

/--
C10 (frame property): the validator never changes any field of any input
record — every record in the valid partition is an input record with at most
the `_warnings` key added, and every invalid-partition entry embeds its
input record unmodified.
-/
theorem validator_frame (g : String → Option Date) (cy : Nat) (emps : List Employee) :
    (∀ v, v ∈ (validate_employee_data g cy emps).valid →
       ∃ e, e ∈ emps ∧ (v = e ∨ ∃ w, v = { e with warningsAttached := w })) ∧
    (∀ b, b ∈ (validate_employee_data g cy emps).invalid → b.employee ∈ emps) := by
  constructor
  · intro v hv
    simp only [validate_employee_data] at hv
    rw [List.mem_filterMap] at hv
    obtain ⟨e, he, hcl⟩ := hv
    cases hc : classify g cy e with
    | ok v' =>
      rw [hc] at hcl
      simp at hcl
      subst hcl
      exact ⟨e, he, classify_ok_frame hc⟩
    | bad b =>
      rw [hc] at hcl
      simp at hcl
  · intro b hb
    simp only [validate_employee_data] at hb
    rw [List.mem_filterMap] at hb
    obtain ⟨e, he, hcl⟩ := hb
    cases hc : classify g cy e with
    | ok v' =>
      rw [hc] at hcl
      simp at hcl
    | bad b' =>
      rw [hc] at hcl
      simp at hcl
      subst hcl
      rw [(classify_bad_frame hc).1]
      exact he

theorem validator_frame_witness :
    ∃ e, e ∈ [wFrameRec] ∧
      (({ first_name := some "Ann",
          warningsAttached := ["Missing employee ID", "Missing email address",
            "Missing phone number", "Missing hire date", "Missing date of birth",
            "Missing job title"] } : Employee) = e ∨
        ∃ w, ({ first_name := some "Ann",
                warningsAttached := ["Missing employee ID", "Missing email address",
                  "Missing phone number", "Missing hire date", "Missing date of birth",
                  "Missing job title"] } : Employee) = { e with warningsAttached := w }) :=
  (validator_frame noParse 2026 [wFrameRec]).1
    { first_name := some "Ann",
      warningsAttached := ["Missing employee ID", "Missing email address",
        "Missing phone number", "Missing hire date", "Missing date of birth",
        "Missing job title"] }
    (by decide)

/-! ## Email validation -/

/--
C7 counterexample: the email `"a b@x.com"` satisfies the prose shape
description (exactly one `@`, non-empty local part, domain containing a dot,
alphabetic TLD of length ≥ 2) yet the validator attaches the fatal issue
"Invalid email format" and classifies the record invalid, because the
implemented pattern restricts the local-part character set.
-/
theorem email_shape_gloss_mismatch :
    specEmailShape "a b@x.com" = true ∧
    email_pattern "a b@x.com" = false ∧
    (validate_employee_data noParse 2026 [cexEmail]).valid = [] ∧
    (validate_employee_data noParse 2026 [cexEmail]).invalid.map InvalidEntry.issues =
      [["Invalid email format"]] :=
  ⟨rfl, rfl, rfl, rfl⟩

/--
C7 (amended): a canonical record with a present non-empty email carries the
fatal issue "Invalid email format" and is classified invalid if and only if
the email fails the implemented pattern
`^[a-zA-Z0-9._%+-]+@[a-zA-Z0-9.-]+\.[a-zA-Z]{2,}$`; and (Scenario B) the row
whose only identifying field is the email `"invalid-email"` is retained by
the normalizer and classified invalid with that issue.
-/
theorem email_issue_iff_pattern_fails :
    (∀ (g : String → Option Date) (cy : Nat) (e : Employee) (s : String),
       e.email = some s → s ≠ "" →
       ((∃ b, classify g cy e = Outcome.bad b ∧ "Invalid email format" ∈ b.issues) ↔
         email_pattern s = false)) ∧
    ((map_employee_fields noParse [rowScenarioB]).length = 1 ∧
     (validate_employee_data noParse 2026 (map_employee_fields noParse [rowScenarioB])).valid
        = [] ∧
     (validate_employee_data noParse 2026
        (map_employee_fields noParse [rowScenarioB])).invalid.map InvalidEntry.issues =
       [["Invalid email format", "Invalid hire date format"]]) := by
  constructor
  · intro g cy e s he hs
    constructor
    · rintro ⟨b, hb, hmem⟩
      obtain ⟨-, hiss⟩ := classify_bad_frame hb
      rw [hiss] at hmem
      rw [show (employeeIssues g cy e).1 =
            idIssues e ++ emailIssues e ++ hireIssues g e ++ dobIssues g e from rfl] at hmem
      rcases List.mem_append.mp hmem with hmem' | hdob
      · rcases List.mem_append.mp hmem' with hmem'' | hhire
        · rcases List.mem_append.mp hmem'' with hid | hemail
          · exact absurd (mem_idIssues hid) (by decide)
          · exact (mem_emailIssues he hemail).2.2
        · exact absurd (mem_hireIssues hhire) (by decide)
      · exact absurd (mem_dobIssues hdob) (by decide)
    · intro hp
      have hmem : "Invalid email format" ∈ (employeeIssues g cy e).1 := by
        rw [show (employeeIssues g cy e).1 =
              idIssues e ++ emailIssues e ++ hireIssues g e ++ dobIssues g e from rfl]
        rw [emailIssues_of_fail he hs hp]
        simp
      have hcrit : ((employeeIssues g cy e).1.filter isCritical).isEmpty = false := by
        rw [List.isEmpty_eq_false]
        apply List.ne_nil_of_mem (a := "Invalid email format")
        rw [List.mem_filter]
        exact ⟨hmem, by decide⟩
      exact ⟨_, classify_bad_of_critical hcrit, hmem⟩
  · exact ⟨rfl, rfl, rfl⟩

theorem email_issue_iff_pattern_fails_witness :
    (∃ b, classify noParse 2026 wEmailRec = Outcome.bad b ∧
        "Invalid email format" ∈ b.issues) ↔
      email_pattern "invalid-email" = false :=
  email_issue_iff_pattern_fails.1 noParse 2026 wEmailRec "invalid-email" rfl (by decide)

/-! ## Unparseable dates in the validator -/

/--
C1: the code contradicts the claim for hire dates.  A canonical record whose
hire_date fails the validator's re-parse attempt receives the issue
"Invalid hire date format", but the critical-issue filter only recognizes
the substring "Invalid date", which does not occur in that message, so the
record stays in the valid partition (with the issue silently dropped) —
while the symmetric date_of_birth case is classified invalid as the claim
says.
-/
theorem unparseable_hire_date_record_stays_valid :
    reparse noParse "32/13/2020" = none ∧
    isCritical "Invalid hire date format" = false ∧
    isCritical "Invalid date of birth format" = true ∧
    (validate_employee_data noParse 2026 [cexHire]).invalid = [] ∧
    (validate_employee_data noParse 2026 [cexHire]).valid =
      [{ cexHire with warningsAttached := ["Missing email address", "Missing phone number",
          "Missing date of birth", "Missing job title"] }] ∧
    (validate_employee_data noParse 2026 [cexDob]).valid = [] ∧
    (validate_employee_data noParse 2026 [cexDob]).invalid.map InvalidEntry.issues =
      [["Invalid date of birth format"]] :=
  ⟨rfl, rfl, rfl, rfl, rfl, rfl, rfl⟩

/-! ## Phone-format warning condition -/

/--
C2: the code contradicts the claim (and its own comment).  The warning
condition is `re.search(r'\d{7,}', phone)`, i.e. the absence of a run of
seven consecutive digits — not "fewer than 7 digits in total": the phone
`"123-456-7890"` has ten digits total yet still receives the phone-format
warning in the valid partition.
-/
theorem ten_digit_phone_still_warned :
    digitCount "123-456-7890" = 10 ∧
    hasRun7 "123-456-7890" = false ∧
    (validate_employee_data noParse 2026 [cexPhone]).invalid = [] ∧
    (validate_employee_data noParse 2026 [cexPhone]).valid =
      [{ cexPhone with warningsAttached := ["Missing email address",
          "Phone number may be invalid format: 123-456-7890", "Missing hire date",
          "Missing date of birth", "Missing job title"] }] :=
  ⟨rfl, rfl, rfl, rfl⟩

/-! ## Empty raw-record source -/

/--
C9: an empty raw-record source yields exactly one failure result carrying
the error message and the timestamp, with no valid/invalid partitions (the
failure constructor carries none).
-/
theorem empty_source_single_failure (g : String → Option Date) (cy : Nat) (ts : String) :
    scrape_employee_data g cy ts [] = ScrapeResult.err "No data found in the file" ts :=
  rfl

/-! ## The three-tier structure of `parse_date` -/

/--
C8 counterexample: when every tier fails, `parse_date` returns the
whitespace-trimmed input, not the original string unchanged: on `" x "` it
returns `"x"`.
-/
theorem parse_date_trims_passthrough :
    tryDateFormats "x" = none ∧
    parse_date noParse (some " x ") = some "x" ∧
    parse_date noParse (some " x ") ≠ some " x " :=
  ⟨rfl, rfl, by decide⟩

theorem firstFormat_eq_some_iff (s : String) (d : Date) :
    ∀ fs : List String, (firstFormat fs s = some d ↔
      ∃ i f, fs.get? i = some f ∧ strptimeDate f s = some d ∧
        ∀ j f', j < i → fs.get? j = some f' → strptimeDate f' s = none) := by
  intro fs
  induction fs with
  | nil => simp [firstFormat]
  | cons f0 rest ih =>
    rw [firstFormat]
    cases h0 : strptimeDate f0 s with
    | some d0 =>
      constructor
      · intro h
        have hd : d0 = d := by simpa using h
        subst hd
        exact ⟨0, f0, rfl, h0, fun j f' hj _ => absurd hj (Nat.not_lt_zero j)⟩
      · rintro ⟨i, f, hget, hstr, hprev⟩
        match i with
        | 0 =>
          have hf : f0 = f := by simpa using hget
          subst hf
          rw [h0] at hstr
          exact hstr
        | i' + 1 =>
          exact absurd (hprev 0 f0 (Nat.succ_pos _) rfl) (by simp [h0])
    | none =>
      dsimp only
      constructor
      · intro h
        obtain ⟨i, f, hget, hstr, hprev⟩ := ih.mp h
        refine ⟨i + 1, f, by simpa using hget, hstr, ?_⟩
        intro j f' hj hgj
        match j with
        | 0 =>
          have hf : f0 = f' := by simpa using hgj
          rw [← hf]
          exact h0
        | j' + 1 =>
          exact hprev j' f' (Nat.lt_of_succ_lt_succ hj) (by simpa using hgj)
      · rintro ⟨i, f, hget, hstr, hprev⟩
        match i with
        | 0 =>
          have hf : f0 = f := by simpa using hget
          subst hf
          rw [h0] at hstr
          cases hstr
        | i' + 1 =>
          exact ih.mpr ⟨i', f, by simpa using hget, hstr,
            fun j f' hj hgj => hprev (j + 1) f' (Nat.succ_lt_succ hj) (by simpa using hgj)⟩

/--
C8 (amended): for a non-empty input, `parse_date` is the three-tier chain on
the whitespace-trimmed string — canonical `YYYY-MM-DD` of the first matching
explicit format, else of the generic best-effort parse, else the trimmed
string itself (never `none`); and the explicit tier picks exactly the first
format in the ordered list that parses the string.
-/
theorem parse_date_three_tier :
    (∀ (g : String → Option Date) (s : String), s ≠ "" →
       parse_date g (some s) =
         some (match tryDateFormats (pyStrip s) with
               | some d => isoformat d
               | none =>
                 match g (pyStrip s) with
                 | some d => isoformat d
                 | none => pyStrip s)) ∧
    (∀ (s : String) (d : Date),
       tryDateFormats s = some d ↔
         ∃ i f, date_formats.get? i = some f ∧ strptimeDate f s = some d ∧
           ∀ j f', j < i → date_formats.get? j = some f' → strptimeDate f' s = none) := by
  constructor
  · intro g s hs
    simp only [parse_date]
    rw [if_neg hs]
    cases hX : tryDateFormats (pyStrip s) with
    | some d => simp [hX]
    | none =>
      cases hg : g (pyStrip s) with
      | some d => simp [hX, hg]
      | none => simp [hX, hg]
  · intro s d
    rw [tryDateFormats]
    exact firstFormat_eq_some_iff s d date_formats

theorem parse_date_three_tier_witness :
    parse_date noParse (some "1990-05-10") =
      some (match tryDateFormats (pyStrip "1990-05-10") with
            | some d => isoformat d
            | none =>
              match noParse (pyStrip "1990-05-10") with
              | some d => isoformat d
              | none => pyStrip "1990-05-10") :=
  parse_date_three_tier.1 noParse "1990-05-10" (by decide)

end EmployeeScraper
